import Mathlib

/-!
Verification of the ingestion front-end `py-polars/polars/io.py`.

The Python module is shallowly embedded: every function of the policy layer
(`_prepare_file_arg`, `update_columns`, `read_csv`, `read_ipc`,
`read_parquet`) is translated to a pure Lean function over explicit data
models of its arguments.  External collaborators (the native Rust readers,
pyarrow, fsspec) are not part of the source file; where their behaviour is
needed it is modelled from the specification and marked as such in the
doc comment.  The raised Python exceptions are modelled by an error type and
`Except`; the calls a run makes into collaborators are recorded as an event
trace so that "fails before any collaborator call" claims are statable.
-/

namespace PolarsIO

/-! ### Decimal-numeral facts

`read_csv` translates between the synthetic `column_<k>` names and pyarrow's
`f<j>` names by slicing the string and re-parsing the decimal index
(`int(column[7:]) - 1`, `int(column[1:]) + 1`).  The lemmas below establish
that `String.toNat?` is a left inverse of `Nat.repr`, which the round-trip
claims need.
-/

/-- The folding step used by `String.toNat?`. -/
def natStep (m : Nat) (c : Char) : Nat := m * 10 + (c.toNat - '0'.toNat)

theorem digitChar_toNat (n : Nat) (h : n < 10) : (Nat.digitChar n).toNat - 48 = n := by
  interval_cases n <;> decide

theorem digitChar_isDigit (n : Nat) (h : n < 10) : (Nat.digitChar n).isDigit = true := by
  interval_cases n <;> decide

theorem toDigitsCore_spec : ∀ (fuel n : Nat) (ds : List Char), n < fuel →
    ∃ pre : List Char, Nat.toDigitsCore 10 fuel n ds = pre ++ ds ∧ pre ≠ [] ∧
      (∀ c ∈ pre, c.isDigit = true) ∧
      (∀ acc : Nat, List.foldl natStep acc pre = acc * 10 ^ pre.length + n)
  | 0, _, _, h => absurd h (by omega)
  | fuel+1, n, ds, h => by
    unfold Nat.toDigitsCore
    by_cases h10 : n / 10 = 0
    · have hn : n < 10 := by omega
      refine ⟨[Nat.digitChar (n % 10)], by simp [h10], by simp, ?_, ?_⟩
      · intro c hc
        simp at hc
        subst hc
        exact digitChar_isDigit _ (by omega)
      · intro acc
        have : n % 10 = n := Nat.mod_eq_of_lt hn
        simp [natStep, this, digitChar_toNat n (by omega)]
    · have hlt : n / 10 < fuel := by omega
      obtain ⟨pre, hpre, hne, hdig, hfold⟩ :=
        toDigitsCore_spec fuel (n / 10) (Nat.digitChar (n % 10) :: ds) hlt
      refine ⟨pre ++ [Nat.digitChar (n % 10)], ?_, by simp, ?_, ?_⟩
      · simp [h10, hpre]
      · intro c hc
        simp at hc
        rcases hc with hc | hc
        · exact hdig c hc
        · subst hc; exact digitChar_isDigit _ (by omega)
      · intro acc
        rw [List.foldl_append]
        simp only [List.foldl_cons, List.foldl_nil]
        rw [hfold acc]
        have h48 : '0'.toNat = 48 := rfl
        simp only [natStep, h48, digitChar_toNat (n % 10) (by omega), List.length_append,
          List.length_cons, List.length_nil]
        rw [pow_succ]
        have hdm : 10 * (n / 10) + n % 10 = n := Nat.div_add_mod n 10
        ring_nf
        omega

theorem toNat?_repr (n : Nat) : (Nat.repr n).toNat? = some n := by
  obtain ⟨pre, hpre, hne, hdig, hfold⟩ := toDigitsCore_spec (n+1) n [] (by omega)
  have hd : Nat.toDigits 10 n = pre := by simpa [Nat.toDigits] using hpre
  have hrepr : Nat.repr n = ⟨pre⟩ := by
    rw [Nat.repr, hd]; rfl
  rw [hrepr]
  have hempty : String.isEmpty ⟨pre⟩ = false := by
    rw [Bool.eq_false_iff]
    intro hcon
    rw [String.isEmpty_iff] at hcon
    apply hne
    have : (⟨pre⟩ : String).data = ("" : String).data := by rw [hcon]
    simpa using this
  have hall : String.all ⟨pre⟩ (·.isDigit) = true := by
    rw [String.all_eq]
    rw [List.all_eq_true]
    exact hdig
  rw [String.toNat?]
  have hnat : String.isNat ⟨pre⟩ = true := by
    rw [String.isNat, hempty, hall]
    rfl
  rw [hnat]
  simp only [if_true]
  congr 1
  rw [String.foldl_eq]
  have := hfold 0
  simp only [natStep] at this
  simpa using this

theorem drop_length_append (a b : String) : (a ++ b).drop a.data.length = b := by
  apply String.ext
  rw [String.drop_eq]
  simp [List.drop_left]

/-! ### Data model -/

/-- A dtype code, standing in for the Python `Type[DataType]` class objects. -/
abbrev DType := Nat

/-- The `dtypes` argument of `read_csv`:
`Union[Dict[str, Type[DataType]], List[Type[DataType]]]`.  Python dicts are
modelled as association lists built only through `dictInsert`, preserving
insertion order and key uniqueness. -/
inductive Dtypes where
  | dict (entries : List (String × DType))
  | list (entries : List DType)
  deriving DecidableEq

/-- The `null_values` argument: `Union[str, List[str], Dict[str, str]]`. -/
inductive NullValues where
  | one (s : String)
  | perColumn (l : List String)
  | byName (m : List (String × String))
  deriving DecidableEq

/-- The `file` argument accepted by the readers: one variant per Python type
probed by `_prepare_file_arg` (`StringIO`, `BytesIO`, `pathlib.Path`, `str`,
`List[str]`, `bytes`, any other open binary stream).  A byte string carries
its bytes; an arbitrary open stream is opaque. -/
inductive FileArg where
  | stringBuf (content : String)
  | bytesBuf (content : List Nat)
  | pathObj (p : String)
  | strPath (s : String)
  | strList (l : List String)
  | bytes (b : List Nat)
  | stream
  deriving DecidableEq

/-- What `_prepare_file_arg` hands downstream: a path string, a list of path
strings, a `BytesIO` stream over the given bytes, stream(s) opened by fsspec,
the caller's raw `bytes` object, or the caller's own open stream. -/
inductive Resolved where
  | pathStr (s : String)
  | pathList (l : List String)
  | byteStream (data : List Nat)
  | remoteStream
  | bytes (b : List Nat)
  | stream
  deriving DecidableEq

/-- The context manager returned by `_prepare_file_arg`, together with what
leaving the enclosing `with` block does.  `exitCloses` records whether the
`with`-statement exit closes the underlying object (Python `IOBase.__exit__`
calls `close()`; the `managed_file` wrapper's `finally: pass` does not, and
exiting a bare `str`/`list` wrapped in `managed_file` touches nothing).
`isCallerObject` records whether the managed value is the very object the
caller supplied (pass-through) rather than one created by the resolver. -/
structure ScopedSource where
  value : Resolved
  exitCloses : Bool
  isCallerObject : Bool
  deriving DecidableEq

/-- The process environment the module reads: availability of the optional
dependencies (`_PYARROW_AVAILABLE`, `_WITH_FSSPEC`), the behaviour of the
external helpers `fsspec.utils.infer_storage_options` (whether a path's
protocol is the local `"file"` protocol) and `urlopen` (the fetched body),
and — modelled from the spec — the shape of the underlying tabular data that
the external decoding engines would report: its width and its header names. -/
structure Env where
  pyarrowAvailable : Bool
  fsspecAvailable : Bool
  protoIsFile : String → Bool
  httpBytes : String → List Nat
  srcWidth : Nat
  srcHeader : List String

/-- UTF-8 encoding of a string, as `file.read().encode("utf8")` produces. -/
def utf8Bytes (s : String) : List Nat := s.toUTF8.toList.map (fun b => b.toNat)

/-- Python `str.startswith`, modelled over the character data. -/
def strStartsWith (s t : String) : Bool := t.data.isPrefixOf s.data

/-- `_prepare_file_arg` (io.py lines 82–123): normalize the input descriptor.
Each branch records, besides the resolved value, whether the `with`-exit of
the returned context manager closes the object and whether the object is the
caller's own.  `StringIO` is decoded to a fresh `BytesIO`; `BytesIO` is
returned bare (so the `with` statement closes it); `Path` is converted to a
string wrapped in the no-op `managed_file`; a `str` goes to fsspec when
available (local protocol: no-op wrapper; remote: fsspec-owned stream),
otherwise an `http` address is fetched into a fresh `BytesIO` and any other
string falls through to the final no-op wrapper; a non-empty list of strings
goes to fsspec likewise; everything else (raw `bytes`, open streams) falls
through to the final `managed_file` pass-through. -/
def _prepare_file_arg (env : Env) (file : FileArg) : ScopedSource :=
  match file with
  | .stringBuf c => ⟨.byteStream (utf8Bytes c), true, false⟩
  | .bytesBuf b => ⟨.byteStream b, true, true⟩
  | .pathObj p => ⟨.pathStr p, false, false⟩
  | .strPath s =>
    if env.fsspecAvailable then
      if env.protoIsFile s then ⟨.pathStr s, false, true⟩
      else ⟨.remoteStream, true, false⟩
    else if strStartsWith s "http" then ⟨.byteStream (env.httpBytes s), true, false⟩
    else ⟨.pathStr s, false, true⟩
  | .strList l =>
    if !l.isEmpty && env.fsspecAvailable then
      if l.all env.protoIsFile then ⟨.pathList l, false, true⟩
      else ⟨.remoteStream, true, false⟩
    else ⟨.pathList l, false, true⟩
  | .bytes b => ⟨.bytes b, false, true⟩
  | .stream => ⟨.stream, false, true⟩

/-- The result container: only the column names are modelled. -/
structure DataFrame where
  columns : List String
  deriving DecidableEq

/-- `df.width`: the number of columns. -/
def DataFrame.width (df : DataFrame) : Nat := df.columns.length

/-- Modelled from the spec: the `DataFrame.columns` setter, a container
primitive of `polars.internals` that is not part of src/.  Per §3 of the
spec, "a rename list longer than the table's column count is truncated
silently to the table's width; a rename list shorter than the width leaves
trailing columns with their original names". -/
def DataFrame.setColumns (df : DataFrame) (new_columns : List String) : DataFrame :=
  ⟨new_columns.take df.width ++ df.columns.drop new_columns.length⟩

/-- The loop at io.py lines 128–130: `cols[i] = name` for each
`i, name in enumerate(new_columns)` over a copy of `df.columns` (only
reached when `new_columns` is strictly shorter than the column list). -/
def overwriteNames : List String → List String → List String
  | cols, [] => cols
  | [], _ => []
  | _ :: cols, name :: names => name :: overwriteNames cols names

/-- `update_columns` (io.py lines 126–133). -/
def update_columns (df : DataFrame) (new_columns : List String) : DataFrame :=
  if new_columns.length < df.width then
    df.setColumns (overwriteNames df.columns new_columns)
  else
    df.setColumns new_columns

/-! ### Python dict and truthiness helpers -/

/-- Python truthiness of an optional list (`None` and `[]` are falsy). -/
def optListTruthy {α : Type} (o : Option (List α)) : Bool :=
  match o with
  | none => false
  | some l => !l.isEmpty

/-- Python truthiness of an optional integer (`None` and `0` are falsy). -/
def optNatTruthy (o : Option Nat) : Bool :=
  match o with
  | none => false
  | some n => n != 0

/-- Python dict assignment `d[k] = v`: overwrite the value in place when the
key exists (keeping its position), append a fresh binding otherwise. -/
def dictInsert {β : Type} (d : List (String × β)) (k : String) (v : β) : List (String × β) :=
  if (d.lookup k).isSome then d.map (fun kv => if kv.1 == k then (kv.1, v) else kv)
  else d ++ [(k, v)]

/-- A Python dict built from a sequence of key/value pairs (`dict(...)` or a
dict comprehension): later bindings for a repeated key overwrite earlier
ones. -/
def dictOfPairs {β : Type} (l : List (String × β)) : List (String × β) :=
  l.foldl (fun d kv => dictInsert d kv.1 kv.2) []

/-- Python `d.get(k, dflt)`. -/
def dictGetD {β : Type} (d : List (String × β)) (k : String) (dflt : β) : β :=
  (d.lookup k).getD dflt

/-! ### Column-name translation helpers

The comprehension bodies of io.py lines 270, 276 and 295.  Python's `int()`
is modelled by `String.toNat?` (faithful on the strings of decimal digits
these translations are fed); the result of a failed parse, which in Python
raises, is defaulted to `0`. -/

/-- Body of `[f"f{int(column[7:]) - 1}" for column in columns]` (line 270). -/
def pyarrowNameOfColumn (column : String) : String :=
  "f" ++ toString ((((column.drop 7).toNat?).getD 0 : Int) - 1)

/-- Body of `[f"f{column_idx}" for column_idx in projection]` (line 276). -/
def pyarrowNameOfIndex (idx : Nat) : String :=
  "f" ++ toString idx

/-- Body of `[f"column_{int(column[1:]) + 1}" for column in tbl.column_names]`
(line 295). -/
def columnNameOfPyarrow (column : String) : String :=
  "column_" ++ toString ((((column.drop 1).toNat?).getD 0 : Int) + 1)

/-- The synthetic header-less column name `column_<k>` (1-based). -/
def syntheticName (k : Nat) : String :=
  "column_" ++ toString k

/-! ### Collaborator models (absent from src/) -/

/-- Modelled from the spec: the auto-generated positional column names of the
alternate reader (`pyarrow.csv.read_csv` with `autogenerate_column_names`,
an external collaborator): "the collaborator's auto-generated positional
names" (§4.2), zero-based `f0 .. f(N-1)` for a width-`N` source. -/
def pyarrowAutoNames (width : Nat) : List String :=
  (List.range width).map pyarrowNameOfIndex

/-- Modelled from the spec: the column names of the table the alternate
reader returns — an `include_columns` selection yields exactly those columns;
otherwise the auto-generated positional names when the header is absent, the
source's header names when present. -/
def pyarrowCsvTableNames (env : Env) (autogenerate : Bool)
    (include_columns : Option (List String)) : List String :=
  match include_columns with
  | some ic => ic
  | none => if autogenerate then pyarrowAutoNames env.srcWidth else env.srcHeader

/-- Modelled from the spec: the output column names of the native eager
delimited-text reader `DataFrame.read_csv` (a collaborator in
`polars.internals`, absent from src/).  With no selection they are the header
names, or — header-less — the synthetic 1-based names `column_1..column_N`
contiguous over the width (§8.2 and the `has_header` doc of io.py); an
explicit name selection yields those names; an index projection yields the
names at those positions. -/
def nativeCsvNames (env : Env) (has_header : Bool) (columns : Option (List String))
    (projection : Option (List Nat)) : List String :=
  if optListTruthy columns then columns.getD []
  else if optListTruthy projection then
    (projection.getD []).map
      (fun i => if has_header then env.srcHeader.getD i "" else syntheticName (i + 1))
  else if has_header then env.srcHeader
  else (List.range env.srcWidth).map (fun i => syntheticName (i + 1))

/-- A name-or-index column selector (`Union[List[int], List[str]]`) of
`read_ipc`/`read_parquet`. -/
inductive ColSel where
  | names (l : List String)
  | indices (l : List Nat)
  deriving DecidableEq

/-- Python truthiness of an optional selector list. -/
def colSelTruthy (o : Option ColSel) : Bool :=
  match o with
  | none => false
  | some (.names l) => !l.isEmpty
  | some (.indices l) => !l.isEmpty

/-- Modelled from the spec: the column names a columnar-binary read returns —
the requested names for a name selection, the header names at the requested
indices for an index selection, the full schema names otherwise. -/
def selectedNames (env : Env) (sel : Option ColSel) : List String :=
  match sel with
  | some (.names l) => l
  | some (.indices l) => l.map (fun i => env.srcHeader.getD i "")
  | none => env.srcHeader

/-! ### Errors, events and runs -/

/-- The exceptions the module raises, one constructor per `raise` site. -/
inductive Err where
  | noDataInBytes
  | autogeneratedNamesMismatch
  | pyarrowRequired (fn : String)
  | tooManyNewColumns
  | tooManyNewColumnsProjected
  | nRowsWithPyarrow (fn : String)
  deriving DecidableEq

/-- The arguments `read_csv` forwards to the native reader
`DataFrame.read_csv` (io.py lines 362–382). -/
structure NativeCsvArgs where
  source : Resolved
  infer_schema_length : Option Nat
  batch_size : Nat
  has_header : Bool
  ignore_errors : Bool
  n_rows : Option Nat
  skip_rows : Nat
  projection : Option (List Nat)
  sep : String
  columns : Option (List String)
  rechunk : Bool
  encoding : String
  n_threads : Option Nat
  dtypes : Option Dtypes
  low_memory : Bool
  comment_char : Option Char
  quote_char : Option Char
  null_values : Option NullValues
  parse_dates : Bool
  deriving DecidableEq

/-- A call this layer makes into a collaborator: resolving the source, or
invoking one of the readers with the recorded arguments. -/
inductive Event where
  | resolve (file : FileArg)
  | pyarrowCsvRead (data : Resolved) (skip_rows : Nat) (autogenerate : Bool)
      (sep : String) (include_columns : Option (List String)) (include_missing : Bool)
  | nativeCsvRead (args : NativeCsvArgs)
  | pyarrowFeatherRead (data : Resolved) (memory_map : Bool) (sel : Option ColSel)
  | nativeIpcRead (data : Resolved) (columns : Option ColSel)
      (projection : Option (List Nat)) (n_rows : Option Nat)
  | pyarrowParquetRead (data : Resolved) (memory_map : Bool) (sel : Option ColSel)
  | nativeParquetRead (data : Resolved) (columns : Option ColSel)
      (projection : Option (List Nat)) (n_rows : Option Nat)
  deriving DecidableEq

/-- Whether an event is an invocation of the alternate (pyarrow) csv reader. -/
def Event.isPyarrowCsv : Event → Bool
  | .pyarrowCsvRead .. => true
  | _ => false

/-- Whether an event is an invocation of the native csv reader. -/
def Event.isNativeCsv : Event → Bool
  | .nativeCsvRead .. => true
  | _ => false

instance {ε α : Type} [DecidableEq ε] [DecidableEq α] : DecidableEq (Except ε α) := fun a b =>
  match a, b with
  | .error e, .error f => if h : e = f then isTrue (by rw [h]) else isFalse (by simp [h])
  | .ok x, .ok y => if h : x = y then isTrue (by rw [h]) else isFalse (by simp [h])
  | .error _, .ok _ => isFalse (by simp)
  | .ok _, .error _ => isFalse (by simp)

/-- One call of a reader entry point: the collaborator calls it made, in
order, and its outcome (the returned table or the exception raised). -/
structure Run where
  events : List Event
  result : Except Err DataFrame
  deriving DecidableEq

/-! ### `read_csv` (io.py lines 136–386) -/

/-- The parameters of `read_csv`, with the module's defaults.  The
`**kwargs` backward-compatibility alias for `dtypes` (line 234) merely
re-reads the same argument and is not modelled; `storage_options` is only
forwarded opaquely to fsspec and is likewise omitted. -/
structure CsvParams where
  file : FileArg
  infer_schema_length : Option Nat := some 100
  batch_size : Nat := 8192
  has_header : Bool := true
  ignore_errors : Bool := false
  n_rows : Option Nat := none
  skip_rows : Nat := 0
  projection : Option (List Nat) := none
  sep : String := ","
  columns : Option (List String) := none
  rechunk : Bool := true
  encoding : String := "utf8"
  n_threads : Option Nat := none
  dtypes : Option Dtypes := none
  new_columns : Option (List String) := none
  use_pyarrow : Bool := false
  low_memory : Bool := false
  comment_char : Option Char := none
  quote_char : Option Char := some '"'
  null_values : Option NullValues := none
  parse_dates : Bool := false

/-- Line 236: `isinstance(file, bytes) and len(file) == 0`. -/
def isEmptyBytesArg : FileArg → Bool
  | .bytes b => b.isEmpty
  | _ => false

/-- Lines 241–247: a truthy explicit column selection together with
`has_header=False` raises when some requested name does not start with
`"column_"`. -/
def columnsNameCheckFails (p : CsvParams) : Bool :=
  optListTruthy p.columns && !p.has_header &&
    (p.columns.getD []).any (fun column => !(strStartsWith column "column_"))

/-- The conjunction at lines 254–263 selecting the alternate (pyarrow) eager
strategy. -/
def pyarrowEligible (p : CsvParams) : Bool :=
  p.use_pyarrow && p.dtypes.isNone && p.n_rows.isNone && p.n_threads.isNone &&
    (p.encoding == "utf8") && !p.low_memory && p.null_values.isNone && p.parse_dates

/-- Lines 264–276: the `include_columns` list derived for pyarrow. -/
def pyarrowIncludeColumns (p : CsvParams) : Option (List String) :=
  if optListTruthy p.columns then
    if !p.has_header then some ((p.columns.getD []).map pyarrowNameOfColumn)
    else p.columns
  else if optListTruthy p.projection then
    some ((p.projection.getD []).map pyarrowNameOfIndex)
  else none

/-- Lines 264–301: the alternate (pyarrow) eager strategy body. -/
def pyarrowCsvRun (env : Env) (p : CsvParams) : Run :=
  let include_columns := pyarrowIncludeColumns p
  let src := _prepare_file_arg env p.file
  let tblNames := pyarrowCsvTableNames env (!p.has_header) include_columns
  let names := if !p.has_header then tblNames.map columnNameOfPyarrow else tblNames
  let df : DataFrame := ⟨names⟩
  let df := if optListTruthy p.new_columns then update_columns df (p.new_columns.getD []) else df
  ⟨[.resolve p.file,
    .pyarrowCsvRead src.value p.skip_rows (!p.has_header) p.sep include_columns p.ignore_errors],
   .ok df⟩

/-- Lines 304–348: determine the pre-rename identity `current_columns` of the
rename-list positions (and, in the header-present branch, the possible
positional-list conversion of the dtype dict), or the `ValueError` raised. -/
def reconcileCurrent (has_header : Bool) (columns : Option (List String))
    (projection : Option (List Nat)) (new_columns : List String)
    (d : List (String × DType)) : Except Err (Option (List String) × Dtypes) :=
  if optListTruthy columns then
    if (columns.getD []).length < new_columns.length then .error .tooManyNewColumns
    else .ok (some ((columns.getD []).take new_columns.length), .dict d)
  else if !has_header then
    if optListTruthy projection then
      if optListTruthy columns && decide ((columns.getD []).length < new_columns.length) then
        .error .tooManyNewColumnsProjected
      else
        .ok (some ((projection.getD []).map (fun i => syntheticName (i + 1))), .dict d)
    else
      .ok (some ((List.range new_columns.length).map (fun i => syntheticName (i + 1))), .dict d)
  else
    if d.length ≤ new_columns.length then
      if ((new_columns.take d.length).filterMap (fun n => d.lookup n)).length = d.length then
        .ok (none, .list ((new_columns.take d.length).filterMap (fun n => d.lookup n)))
      else .ok (none, .dict d)
    else .ok (none, .dict d)

/-- Lines 350–359: if a pre-rename identity was computed and dtypes is still
a dict, re-key every dtype entry through `zip(new_columns, current_columns)`. -/
def rekeyDtypes (new_columns : List String) (current_columns : Option (List String))
    (dts : Dtypes) : Dtypes :=
  if optListTruthy current_columns then
    match dts with
    | .dict entries =>
      .dict (dictOfPairs (entries.map (fun kv =>
        (dictGetD (dictOfPairs (new_columns.zip (current_columns.getD []))) kv.1 kv.1, kv.2))))
    | .list l => .list l
  else dts

/-- Lines 303–359: reconcile the rename list with a name-keyed dtype dict
before the native read.  Invoked only under
`new_columns and dtypes and isinstance(dtypes, dict)`; returns the adjusted
`dtypes` or the `ValueError` raised. -/
def reconcileDtypes (has_header : Bool) (columns : Option (List String))
    (projection : Option (List Nat)) (new_columns : List String)
    (d : List (String × DType)) : Except Err Dtypes :=
  match reconcileCurrent has_header columns projection new_columns d with
  | .error e => .error e
  | .ok (current_columns, dts) => .ok (rekeyDtypes new_columns current_columns dts)

/-- Whether the dtypes argument is a (truthy) dict, and its entries. -/
def dtypesIsTruthyDict : Option Dtypes → Bool
  | some (.dict d) => !d.isEmpty
  | _ => false

/-- The entries of a dict-shaped dtypes argument. -/
def dtypesEntries : Option Dtypes → List (String × DType)
  | some (.dict d) => d
  | _ => []

/-- The dtypes argument the native read will receive: reconciled when the
guard of line 303 holds, the caller's otherwise. -/
def adjustedDtypes (p : CsvParams) : Except Err (Option Dtypes) :=
  if optListTruthy p.new_columns && dtypesIsTruthyDict p.dtypes then
    (reconcileDtypes p.has_header p.columns p.projection (p.new_columns.getD [])
      (dtypesEntries p.dtypes)).map some
  else .ok p.dtypes

/-- The argument record of the `DataFrame.read_csv` invocation at lines
362–382, with the (possibly reconciled) dtypes. -/
def nativeCsvArgsOf (env : Env) (p : CsvParams) (dtypes' : Option Dtypes) : NativeCsvArgs :=
  { source := (_prepare_file_arg env p.file).value
    infer_schema_length := p.infer_schema_length
    batch_size := p.batch_size
    has_header := p.has_header
    ignore_errors := p.ignore_errors
    n_rows := p.n_rows
    skip_rows := p.skip_rows
    projection := p.projection
    sep := p.sep
    columns := p.columns
    rechunk := p.rechunk
    encoding := p.encoding
    n_threads := p.n_threads
    dtypes := dtypes'
    low_memory := p.low_memory
    comment_char := p.comment_char
    quote_char := p.quote_char
    null_values := p.null_values
    parse_dates := p.parse_dates }

/-- Lines 303–386: the native eager strategy (reconciliation, resolution,
`DataFrame.read_csv`, post-read rename). -/
def nativeCsvRun (env : Env) (p : CsvParams) : Run :=
  match adjustedDtypes p with
  | .error e => ⟨[], .error e⟩
  | .ok dtypes' =>
    let df : DataFrame := ⟨nativeCsvNames env p.has_header p.columns p.projection⟩
    let df := if optListTruthy p.new_columns then update_columns df (p.new_columns.getD []) else df
    ⟨[.resolve p.file, .nativeCsvRead (nativeCsvArgsOf env p dtypes')], .ok df⟩

/-- `read_csv` (io.py lines 136–386): the validations in source order, then
the strategy selection between the alternate (pyarrow) eager reader and the
native eager reader. -/
def read_csv (env : Env) (p : CsvParams) : Run :=
  if isEmptyBytesArg p.file then ⟨[], .error .noDataInBytes⟩
  else if columnsNameCheckFails p then ⟨[], .error .autogeneratedNamesMismatch⟩
  else if p.use_pyarrow && !env.pyarrowAvailable then
    ⟨[], .error (.pyarrowRequired "read_csv")⟩
  else if pyarrowEligible p then pyarrowCsvRun env p
  else nativeCsvRun env p

/-! ### `read_ipc` (lines 580–643) and `read_parquet` (lines 646–719) -/

/-- The parameters of `read_ipc`/`read_parquet` this layer inspects.  The
`use_pyarrow` default is `_PYARROW_AVAILABLE`, an environment fact, so no
default is baked in here; `storage_options` and the parquet `**kwargs` are
forwarded opaquely and omitted. -/
structure IpcParams where
  file : FileArg
  columns : Option ColSel := none
  projection : Option (List Nat) := none
  n_rows : Option Nat := none
  use_pyarrow : Bool := true
  memory_map : Bool := true

/-- `read_ipc` (io.py lines 580–643): reject a truthy row cap under
`use_pyarrow` before resolving; resolve; then either delegate wholly to
pyarrow (`pa.feather.read_table`, name-or-index selector passed as
`columns if columns else projection`) or unset `projection` when names were
given and call the native `DataFrame.read_ipc` with `n_rows` forwarded. -/
def read_ipc (env : Env) (p : IpcParams) : Run :=
  if p.use_pyarrow && optNatTruthy p.n_rows then
    ⟨[], .error (.nRowsWithPyarrow "read_ipc")⟩
  else
    let src := _prepare_file_arg env p.file
    if p.use_pyarrow then
      if !env.pyarrowAvailable then
        ⟨[.resolve p.file], .error (.pyarrowRequired "read_ipc")⟩
      else
        let sel := if colSelTruthy p.columns then p.columns
                   else p.projection.map ColSel.indices
        ⟨[.resolve p.file, .pyarrowFeatherRead src.value p.memory_map sel],
         .ok ⟨selectedNames env sel⟩⟩
    else
      let projection := if colSelTruthy p.columns then none else p.projection
      ⟨[.resolve p.file, .nativeIpcRead src.value p.columns projection p.n_rows],
       .ok ⟨selectedNames env
         (if colSelTruthy p.columns then p.columns else projection.map ColSel.indices)⟩⟩

/-- `read_parquet` (io.py lines 646–719): identical policy to `read_ipc`
with the parquet collaborators. -/
def read_parquet (env : Env) (p : IpcParams) : Run :=
  if p.use_pyarrow && optNatTruthy p.n_rows then
    ⟨[], .error (.nRowsWithPyarrow "read_parquet")⟩
  else
    let src := _prepare_file_arg env p.file
    if p.use_pyarrow then
      if !env.pyarrowAvailable then
        ⟨[.resolve p.file], .error (.pyarrowRequired "read_parquet")⟩
      else
        let sel := if colSelTruthy p.columns then p.columns
                   else p.projection.map ColSel.indices
        ⟨[.resolve p.file, .pyarrowParquetRead src.value p.memory_map sel],
         .ok ⟨selectedNames env sel⟩⟩
    else
      let projection := if colSelTruthy p.columns then none else p.projection
      ⟨[.resolve p.file, .nativeParquetRead src.value p.columns projection p.n_rows],
       .ok ⟨selectedNames env
         (if colSelTruthy p.columns then p.columns else projection.map ColSel.indices)⟩⟩

/-! ### Supporting lemmas -/

theorem overwriteNames_eq (cols L : List String) (h : L.length ≤ cols.length) :
    overwriteNames cols L = L ++ cols.drop L.length := by
  induction L generalizing cols with
  | nil => simp [overwriteNames]
  | cons a tl ih =>
    cases cols with
    | nil => simp at h
    | cons c ct =>
      simp only [overwriteNames, List.cons_append, List.length_cons, List.drop_succ_cons]
      rw [ih ct (by simpa using h)]

theorem update_columns_columns (df : DataFrame) (L : List String) :
    (update_columns df L).columns = L.take df.width ++ df.columns.drop L.length := by
  unfold update_columns DataFrame.setColumns
  by_cases h : L.length < df.width
  · rw [if_pos h]
    rw [overwriteNames_eq df.columns L (le_of_lt h)]
    have hlen : (L ++ df.columns.drop L.length).length = df.width := by
      simp [DataFrame.width] at h ⊢
      omega
    rw [List.take_of_length_le (le_of_eq hlen)]
    rw [List.drop_eq_nil_of_le (le_of_eq hlen.symm)]
    rw [List.take_of_length_le (le_of_lt h), List.append_nil]
  · rw [if_neg h]

/-- A concrete environment used by the closed witnesses: pyarrow present,
fsspec absent, every path local, a width-2 source with header `a`, `b`. -/
def env0 : Env :=
  ⟨true, false, fun _ => true, fun _ => [], 2, ["a", "b"]⟩

/-! ### C2: rename-list application semantics -/

/-- C2: for a table of width `W` and a rename list `L`, the width is
preserved; when `L` is shorter than `W` exactly the first `|L|` columns take
the new names and the trailing columns keep their original names; when `L`
has length at least `W` the result's names are exactly the first `W` entries
of `L`, the excess being ignored. -/
theorem update_columns_rename_semantics (df : DataFrame) (L : List String) :
    (update_columns df L).width = df.width ∧
    (L.length < df.width →
      (update_columns df L).columns = L ++ df.columns.drop L.length) ∧
    (df.width ≤ L.length →
      (update_columns df L).columns = L.take df.width) := by
  refine ⟨?_, ?_, ?_⟩
  · have h := update_columns_columns df L
    have : (update_columns df L).width = (L.take df.width ++ df.columns.drop L.length).length := by
      rw [DataFrame.width, h]
    rw [this]
    simp [DataFrame.width]
    omega
  · intro h
    rw [update_columns_columns df L, List.take_of_length_le (le_of_lt h)]
  · intro h
    rw [update_columns_columns df L]
    rw [List.drop_eq_nil_of_le (by simpa [DataFrame.width] using h), List.append_nil]

/-- C2 witness: a width-3 table with a shorter and a longer rename list. -/
theorem update_columns_rename_semantics_witness :
    (update_columns ⟨["a", "b", "c"]⟩ ["x"]).columns = ["x"] ++ ["a", "b", "c"].drop 1 ∧
    (update_columns ⟨["a", "b", "c"]⟩ ["x", "y", "z", "w"]).columns =
      ["x", "y", "z", "w"].take 3 :=
  ⟨(update_columns_rename_semantics ⟨["a", "b", "c"]⟩ ["x"]).2.1 (by decide),
   (update_columns_rename_semantics ⟨["a", "b", "c"]⟩ ["x", "y", "z", "w"]).2.2 (by decide)⟩

/-! ### C5: empty byte blob fails first -/

/-- C5: a zero-length `bytes` input makes `read_csv` raise the
invalid-input error immediately: no source resolution and no collaborator
call happens (the event trace is empty), whatever the other options are. -/
theorem read_csv_empty_bytes_fails (env : Env) (p : CsvParams) :
    read_csv env { p with file := .bytes [] } = ⟨[], .error .noDataInBytes⟩ := by
  cases p
  rfl

/-! ### C6: release semantics of the resolver's pass-through cases -/

/-- C6 counterexample: for an in-memory byte buffer (`BytesIO`), the claim
"releasing the returned scoped source is a no-op: the caller-supplied object
is not closed" is false — `_prepare_file_arg` returns the caller's own
`BytesIO` bare, so the enclosing `with` statement closes it on exit. -/
theorem prepare_file_arg_bytesio_closes :
    (_prepare_file_arg env0 (.bytesBuf [65])).isCallerObject = true ∧
    (_prepare_file_arg env0 (.bytesBuf [65])).exitCloses = true :=
  ⟨rfl, rfl⟩

/-- C6 (amended): for the already-open-stream, local-path and local-path-list
pass-through cases, release is a no-op and the caller's object is untouched;
the in-memory byte buffer is passed through unchanged but, being returned
bare, is closed by the scope exit. -/
theorem prepare_file_arg_release_semantics (env : Env) :
    (_prepare_file_arg env .stream = ⟨.stream, false, true⟩) ∧
    (∀ b, _prepare_file_arg env (.bytesBuf b) = ⟨.byteStream b, true, true⟩) ∧
    (∀ q, (_prepare_file_arg env (.pathObj q)).exitCloses = false) ∧
    (∀ s, env.protoIsFile s = true → strStartsWith s "http" = false →
      _prepare_file_arg env (.strPath s) = ⟨.pathStr s, false, true⟩) ∧
    (∀ l, l.all env.protoIsFile = true →
      _prepare_file_arg env (.strList l) = ⟨.pathList l, false, true⟩) := by
  refine ⟨rfl, fun b => rfl, fun q => rfl, ?_, ?_⟩
  · intro s hfile hhttp
    unfold _prepare_file_arg
    cases hav : env.fsspecAvailable <;> simp [hav, hfile, hhttp]
  · intro l hall
    unfold _prepare_file_arg
    cases hav : env.fsspecAvailable <;> simp [hav, hall]

/-- C6 witness: the amended release semantics at a concrete local path and
path list in `env0`. -/
theorem prepare_file_arg_release_semantics_witness :
    _prepare_file_arg env0 (.strPath "a.csv") = ⟨.pathStr "a.csv", false, true⟩ ∧
    _prepare_file_arg env0 (.strList ["a.csv", "b.csv"]) =
      ⟨.pathList ["a.csv", "b.csv"], false, true⟩ :=
  ⟨(prepare_file_arg_release_semantics env0).2.2.2.1 "a.csv" rfl (by decide),
   (prepare_file_arg_release_semantics env0).2.2.2.2 ["a.csv", "b.csv"] (by decide)⟩

/-! ### C8/C9: row cap versus the alternate columnar readers -/

/-- C8 counterexample: `read_ipc` with `use_pyarrow=True` and the row cap
`n_rows = 0` supplied does not fail — the pyarrow collaborator is invoked
and the call succeeds, refuting "a row cap (n_rows) supplied → the call
fails with InvalidOptionCombination before any source resolution". -/
theorem read_ipc_nrows_zero_succeeds :
    (read_ipc env0 { file := .bytes [7], n_rows := some 0, use_pyarrow := true }).result =
      .ok ⟨["a", "b"]⟩ ∧
    (read_ipc env0 { file := .bytes [7], n_rows := some 0, use_pyarrow := true }).events =
      [.resolve (.bytes [7]), .pyarrowFeatherRead (.bytes [7]) true none] :=
  ⟨rfl, rfl⟩

/-- C8 (amended): in `read_ipc` and `read_parquet` with `use_pyarrow=True`,
the rejection fires exactly when the row cap is truthy (supplied and
nonzero); then the call fails before any source resolution or collaborator
call (empty event trace).  With `use_pyarrow=False`, `n_rows` is forwarded
verbatim to the native reader and no error is raised. -/
theorem read_ipc_parquet_nrows_pyarrow (env : Env) (p : IpcParams) :
    (p.use_pyarrow = true → optNatTruthy p.n_rows = true →
      read_ipc env p = ⟨[], .error (.nRowsWithPyarrow "read_ipc")⟩ ∧
      read_parquet env p = ⟨[], .error (.nRowsWithPyarrow "read_parquet")⟩) ∧
    (p.use_pyarrow = false →
      (read_ipc env p).events = [.resolve p.file,
        .nativeIpcRead (_prepare_file_arg env p.file).value p.columns
          (if colSelTruthy p.columns then none else p.projection) p.n_rows] ∧
      (∃ df, (read_ipc env p).result = .ok df) ∧
      (read_parquet env p).events = [.resolve p.file,
        .nativeParquetRead (_prepare_file_arg env p.file).value p.columns
          (if colSelTruthy p.columns then none else p.projection) p.n_rows] ∧
      (∃ df, (read_parquet env p).result = .ok df)) := by
  constructor
  · intro hpa hnr
    constructor <;> simp [read_ipc, read_parquet, hpa, hnr]
  · intro hpa
    refine ⟨?_, ?_, ?_, ?_⟩ <;> simp [read_ipc, read_parquet, hpa]

/-- C8 witness: a truthy row cap with pyarrow fails; without pyarrow the
native read succeeds. -/
theorem read_ipc_parquet_nrows_pyarrow_witness :
    read_ipc env0 { file := .bytes [7], n_rows := some 5, use_pyarrow := true } =
      ⟨[], .error (.nRowsWithPyarrow "read_ipc")⟩ ∧
    (∃ df, (read_ipc env0 { file := .bytes [7], n_rows := some 5, use_pyarrow := false }).result =
      .ok df) :=
  ⟨((read_ipc_parquet_nrows_pyarrow env0
      { file := .bytes [7], n_rows := some 5, use_pyarrow := true }).1 rfl rfl).1,
   ((read_ipc_parquet_nrows_pyarrow env0
      { file := .bytes [7], n_rows := some 5, use_pyarrow := false }).2 rfl).2.1⟩

/-- C9: the row-cap rejection in `read_ipc`/`read_parquet` tests Python
truthiness, not presence: with `n_rows = 0` and `use_pyarrow=True` no error
is raised, the row cap is silently ignored (the run is identical to one with
no `n_rows` at all), and the pyarrow read succeeds. -/
theorem read_ipc_parquet_nrows_zero_ignored (env : Env) (p : IpcParams)
    (hav : env.pyarrowAvailable = true) :
    read_ipc env { p with n_rows := some 0, use_pyarrow := true } =
      read_ipc env { p with n_rows := none, use_pyarrow := true } ∧
    (∃ df, (read_ipc env { p with n_rows := some 0, use_pyarrow := true }).result = .ok df) ∧
    read_parquet env { p with n_rows := some 0, use_pyarrow := true } =
      read_parquet env { p with n_rows := none, use_pyarrow := true } ∧
    (∃ df, (read_parquet env { p with n_rows := some 0, use_pyarrow := true }).result =
      .ok df) := by
  cases p
  refine ⟨?_, ?_, ?_, ?_⟩ <;> simp [read_ipc, read_parquet, optNatTruthy, hav]

/-- C9 witness: the truthiness semantics at a concrete input. -/
theorem read_ipc_parquet_nrows_zero_ignored_witness :
    read_ipc env0 { file := .bytes [7], n_rows := some 0, use_pyarrow := true } =
      read_ipc env0 { file := .bytes [7], n_rows := none, use_pyarrow := true } ∧
    (∃ df, (read_ipc env0 { file := .bytes [7], n_rows := some 0, use_pyarrow := true }).result =
      .ok df) :=
  ⟨(read_ipc_parquet_nrows_zero_ignored env0 { file := .bytes [7] } rfl).1,
   (read_ipc_parquet_nrows_zero_ignored env0 { file := .bytes [7] } rfl).2.1⟩

/-! ### C10: empty bytes pass the resolver untouched in the columnar readers -/

/-- C10: the empty-byte-blob validation lives only in `read_csv`: `read_ipc`
and `read_parquet` never raise it; a raw byte blob (in particular a
zero-length one) falls through the resolver's final pass-through branch
unchanged, and the blob is handed directly to the chosen collaborator. -/
theorem read_ipc_parquet_empty_bytes (env : Env) (p : IpcParams) :
    (∀ b, _prepare_file_arg env (.bytes b) = ⟨.bytes b, false, true⟩) ∧
    ((read_ipc env { p with file := .bytes [] }).result ≠ .error .noDataInBytes) ∧
    ((read_parquet env { p with file := .bytes [] }).result ≠ .error .noDataInBytes) ∧
    ((read_ipc env { p with file := .bytes [], use_pyarrow := false }).events =
      [.resolve (.bytes []), .nativeIpcRead (.bytes []) p.columns
        (if colSelTruthy p.columns then none else p.projection) p.n_rows]) ∧
    ((read_parquet env { p with file := .bytes [], use_pyarrow := false }).events =
      [.resolve (.bytes []), .nativeParquetRead (.bytes []) p.columns
        (if colSelTruthy p.columns then none else p.projection) p.n_rows]) := by
  refine ⟨fun b => rfl, ?_, ?_, ?_, ?_⟩
  · unfold read_ipc
    split_ifs <;> simp
  · unfold read_parquet
    split_ifs <;> simp
  · cases p
    simp [read_ipc, _prepare_file_arg]
  · cases p
    simp [read_parquet, _prepare_file_arg]

/-! ### Branch-shape lemmas for `read_csv` -/

theorem reconcileCurrent_shape (hh : Bool) (cols : Option (List String))
    (proj : Option (List Nat)) (ncs : List String) (d : List (String × DType)) :
    reconcileCurrent hh cols proj ncs d = .error .tooManyNewColumns ∨
    reconcileCurrent hh cols proj ncs d = .error .tooManyNewColumnsProjected ∨
    ∃ v, reconcileCurrent hh cols proj ncs d = .ok v := by
  unfold reconcileCurrent
  split_ifs <;>
    first
      | (left; rfl)
      | (right; left; rfl)
      | (right; right; exact ⟨_, rfl⟩)

theorem adjustedDtypes_shape (p : CsvParams) :
    adjustedDtypes p = .error .tooManyNewColumns ∨
    adjustedDtypes p = .error .tooManyNewColumnsProjected ∨
    ∃ v, adjustedDtypes p = .ok v := by
  unfold adjustedDtypes
  split_ifs with h
  · unfold reconcileDtypes
    rcases reconcileCurrent_shape p.has_header p.columns p.projection (p.new_columns.getD [])
        (dtypesEntries p.dtypes) with h1 | h1 | ⟨v, h1⟩ <;> rw [h1]
    · left; rfl
    · right; left; rfl
    · right; right; exact ⟨_, rfl⟩
  · right; right; exact ⟨_, rfl⟩

theorem nativeCsvRun_shape (env : Env) (p : CsvParams) :
    nativeCsvRun env p = ⟨[], .error .tooManyNewColumns⟩ ∨
    nativeCsvRun env p = ⟨[], .error .tooManyNewColumnsProjected⟩ ∨
    ∃ args df, nativeCsvRun env p = ⟨[.resolve p.file, .nativeCsvRead args], .ok df⟩ := by
  unfold nativeCsvRun
  rcases adjustedDtypes_shape p with h | h | ⟨v, h⟩ <;> rw [h]
  · simp
  · simp
  · right; right
    exact ⟨_, _, rfl⟩

theorem pyarrowCsvRun_result (env : Env) (p : CsvParams) :
    ∃ df, (pyarrowCsvRun env p).result = .ok df :=
  ⟨_, rfl⟩

theorem read_csv_branches (env : Env) (p : CsvParams) :
    (isEmptyBytesArg p.file = true ∧ read_csv env p = ⟨[], .error .noDataInBytes⟩) ∨
    (columnsNameCheckFails p = true ∧
      read_csv env p = ⟨[], .error .autogeneratedNamesMismatch⟩) ∨
    ((p.use_pyarrow && !env.pyarrowAvailable) = true ∧
      read_csv env p = ⟨[], .error (.pyarrowRequired "read_csv")⟩) ∨
    (pyarrowEligible p = true ∧ read_csv env p = pyarrowCsvRun env p) ∨
    (pyarrowEligible p = false ∧ read_csv env p = nativeCsvRun env p) := by
  unfold read_csv
  split_ifs with h1 h2 h3 h4
  · tauto
  · tauto
  · tauto
  · tauto
  · exact Or.inr (Or.inr (Or.inr (Or.inr ⟨by simpa using h4, rfl⟩)))

/-! ### C7: header-less explicit selection must use synthetic names -/

/-- C7: with a truthy explicit column selection and `has_header=False` (and a
non-empty-bytes source, which is validated first), the call fails with the
invalid-option error before any resolution or read exactly when some
requested name does not start with `"column_"`; when every name does, that
error is never raised. -/
theorem read_csv_headerless_name_check (env : Env) (p : CsvParams)
    (hfile : isEmptyBytesArg p.file = false)
    (hcols : optListTruthy p.columns = true) (hh : p.has_header = false) :
    ((p.columns.getD []).any (fun c => !(strStartsWith c "column_")) = true →
      read_csv env p = ⟨[], .error .autogeneratedNamesMismatch⟩) ∧
    ((∀ c ∈ p.columns.getD [], strStartsWith c "column_" = true) →
      (read_csv env p).result ≠ .error .autogeneratedNamesMismatch) := by
  constructor
  · intro hany
    have hcheck : columnsNameCheckFails p = true := by
      simp [columnsNameCheckFails, hcols, hh, hany]
    simp [read_csv, hfile, hcheck]
  · intro hall
    have hcheck : columnsNameCheckFails p = false := by
      simp [columnsNameCheckFails, hcols, hh]
      intro c hc
      exact hall c hc
    rcases read_csv_branches env p with ⟨hg, h⟩ | ⟨hg, h⟩ | ⟨hg, h⟩ | ⟨hg, h⟩ | ⟨_, h⟩
    · rw [hg] at hfile; exact absurd hfile (by simp)
    · rw [hg] at hcheck; exact absurd hcheck (by simp)
    · rw [h]; simp
    · rw [h]
      obtain ⟨df, hdf⟩ := pyarrowCsvRun_result env p
      rw [hdf]; simp
    · rw [h]
      rcases nativeCsvRun_shape env p with h1 | h1 | ⟨args, df, h1⟩ <;> rw [h1] <;> simp

/-- C7 witness: a bad name fails, all-synthetic names do not. -/
theorem read_csv_headerless_name_check_witness :
    read_csv env0
      { file := .strPath "t.csv", columns := some ["foo"], has_header := false } =
      ⟨[], .error .autogeneratedNamesMismatch⟩ ∧
    (read_csv env0
      { file := .strPath "t.csv", columns := some ["column_1"], has_header := false }).result ≠
      .error .autogeneratedNamesMismatch :=
  ⟨(read_csv_headerless_name_check env0
      { file := .strPath "t.csv", columns := some ["foo"], has_header := false }
      rfl rfl rfl).1 (by decide),
   (read_csv_headerless_name_check env0
      { file := .strPath "t.csv", columns := some ["column_1"], has_header := false }
      rfl rfl rfl).2 (by decide)⟩

/-! ### C1: unsupported options silently downgrade the pyarrow strategy -/

/-- C1: whenever `use_pyarrow=True` (with pyarrow available) is combined with
dtype overrides, a row cap, a thread count, a non-default encoding, low
memory mode, a null-token override, or `parse_dates=False`, the whole call
behaves exactly as with `use_pyarrow=False`: the alternate (pyarrow) csv
reader is never invoked, and whenever the call succeeds it did so through
the native `DataFrame.read_csv`; no error arises from the combination. -/
theorem read_csv_pyarrow_fallback (env : Env) (p : CsvParams)
    (hpa : p.use_pyarrow = true) (hav : env.pyarrowAvailable = true)
    (hdis : p.dtypes ≠ none ∨ p.n_rows ≠ none ∨ p.n_threads ≠ none ∨
      p.encoding ≠ "utf8" ∨ p.low_memory = true ∨ p.null_values ≠ none ∨
      p.parse_dates = false) :
    read_csv env p = read_csv env { p with use_pyarrow := false } ∧
    (∀ e ∈ (read_csv env p).events, e.isPyarrowCsv = false) ∧
    ((∃ df, (read_csv env p).result = .ok df) →
      ∃ e ∈ (read_csv env p).events, e.isNativeCsv = true) := by
  have hguard : pyarrowEligible p = false := by
    rcases hdis with h | h | h | h | h | h | h <;>
      simp [pyarrowEligible, Option.isNone_iff_eq_none, beq_iff_eq, h]
  have hmain : read_csv env p = read_csv env { p with use_pyarrow := false } := by
    have hguard' : pyarrowEligible { p with use_pyarrow := false } = false := by
      simp [pyarrowEligible]
    have hnn : nativeCsvRun env { p with use_pyarrow := false } = nativeCsvRun env p := by
      cases p; rfl
    unfold read_csv
    simp [hguard, hguard', hpa, hav, hnn, columnsNameCheckFails]
  refine ⟨hmain, ?_, ?_⟩
  · intro e he
    rcases read_csv_branches env p with ⟨_, h⟩ | ⟨_, h⟩ | ⟨_, h⟩ | ⟨hg, _⟩ | ⟨_, h⟩
    · rw [h] at he; simp at he
    · rw [h] at he; simp at he
    · rw [h] at he; simp at he
    · rw [hg] at hguard; exact absurd hguard (by simp)
    · rw [h] at he
      rcases nativeCsvRun_shape env p with h1 | h1 | ⟨args, df, h1⟩ <;> rw [h1] at he <;>
        simp at he
      rcases he with he | he <;> rw [he] <;> rfl
  · rintro ⟨df, hok⟩
    rcases read_csv_branches env p with ⟨_, h⟩ | ⟨_, h⟩ | ⟨_, h⟩ | ⟨hg, _⟩ | ⟨_, h⟩
    · rw [h] at hok; simp at hok
    · rw [h] at hok; simp at hok
    · rw [h] at hok; simp at hok
    · rw [hg] at hguard; exact absurd hguard (by simp)
    · rcases nativeCsvRun_shape env p with h1 | h1 | ⟨args, df', h1⟩
      · rw [h, h1] at hok; simp at hok
      · rw [h, h1] at hok; simp at hok
      · rw [h, h1]
        exact ⟨.nativeCsvRead args, by simp, rfl⟩

/-- C1 witness: a row cap combined with `use_pyarrow=True` downgrades to the
native strategy. -/
theorem read_csv_pyarrow_fallback_witness :
    read_csv env0
      { file := .strPath "t.csv", use_pyarrow := true, n_rows := some 3, parse_dates := true } =
    read_csv env0
      { ({ file := .strPath "t.csv", use_pyarrow := true, n_rows := some 3,
           parse_dates := true } : CsvParams) with use_pyarrow := false } :=
  (read_csv_pyarrow_fallback env0
    { file := .strPath "t.csv", use_pyarrow := true, n_rows := some 3, parse_dates := true }
    rfl rfl (Or.inr (Or.inl (by simp)))).1

/-! ### Dict lemmas for C4 -/

theorem lookup_eq_none_of_not_mem {β : Type} (l : List (String × β)) (k : String)
    (h : k ∉ l.map Prod.fst) : l.lookup k = none := by
  induction l with
  | nil => rfl
  | cons kv tl ih =>
    simp only [List.map_cons, List.mem_cons, not_or] at h
    obtain ⟨h1, h2⟩ := h
    cases kv with
    | mk a b =>
      simp only [List.lookup]
      rw [show (k == a) = false from by simpa using h1]
      exact ih h2

theorem dictInsert_of_not_mem {β : Type} (d : List (String × β)) (k : String) (v : β)
    (h : k ∉ d.map Prod.fst) : dictInsert d k v = d ++ [(k, v)] := by
  unfold dictInsert
  rw [lookup_eq_none_of_not_mem d k h]
  simp

theorem foldl_dictInsert_append {β : Type} :
    ∀ (l acc : List (String × β)), (acc.map Prod.fst ++ l.map Prod.fst).Nodup →
      l.foldl (fun d kv => dictInsert d kv.1 kv.2) acc = acc ++ l
  | [], acc, _ => by simp
  | kv :: tl, acc, h => by
    rw [List.foldl_cons]
    have hk : kv.1 ∉ acc.map Prod.fst := by
      intro hmem
      exact (List.nodup_append.mp (by simpa using h)).2.2 hmem (by simp)
    rw [dictInsert_of_not_mem acc kv.1 kv.2 hk]
    have h' : ((acc ++ [kv]).map Prod.fst ++ tl.map Prod.fst).Nodup := by
      rw [List.map_append, List.append_assoc]
      simpa using h
    rw [foldl_dictInsert_append tl (acc ++ [kv]) h']
    simp

theorem dictOfPairs_eq_self {β : Type} (l : List (String × β))
    (h : (l.map Prod.fst).Nodup) : dictOfPairs l = l := by
  have := foldl_dictInsert_append l [] (by simpa using h)
  simpa [dictOfPairs] using this

theorem lookup_zip_getD : ∀ (ks vs : List String) (i : Nat), ks.Nodup →
    i < ks.length → ks.length = vs.length →
    (ks.zip vs).lookup (ks.getD i "") = some (vs.getD i "")
  | [], _, i, _, hi, _ => by simp at hi
  | _ :: _, [], _, _, _, hlen => by simp at hlen
  | k :: kt, v :: vt, 0, _, _, _ => by
    simp only [List.zip_cons_cons, List.getD_cons_zero, List.lookup]
    rw [show (k == k) = true from by simp]
  | k :: kt, v :: vt, i+1, hnd, hi, hlen => by
    have hmem : kt.getD i "" ∈ kt := by
      have hik : i < kt.length := by simpa using hi
      rw [List.getD_eq_getElem?_getD, List.getElem?_eq_getElem hik]
      simp [List.getElem_mem hik]
    have hne : (kt.getD i "" == k) = false := by
      rw [beq_eq_false_iff_ne]
      intro hcon
      rw [hcon] at hmem
      exact (List.nodup_cons.mp hnd).1 hmem
    simp only [List.zip_cons_cons, List.getD_cons_succ, List.lookup, hne]
    exact lookup_zip_getD kt vt i (List.nodup_cons.mp hnd).2 (by simpa using hi)
      (by simpa using hlen)

theorem getD_take_eq (l : List String) (n i : Nat) (h : i < n) :
    (l.take n).getD i "" = l.getD i "" := by
  rw [List.getD_eq_getElem?_getD, List.getD_eq_getElem?_getD]
  by_cases hi : i < l.length
  · rw [List.getElem?_eq_getElem (by simp; omega), List.getElem?_eq_getElem hi]
    simp
  · rw [List.getElem?_eq_none (by simp; omega), List.getElem?_eq_none (by omega)]

theorem optListTruthy_some {α : Type} (l : List α) (h : l ≠ []) :
    optListTruthy (some l) = true := by
  cases l with
  | nil => exact absurd rfl h
  | cons a t => rfl

theorem dtypesIsTruthyDict_some (d : List (String × DType)) (h : d ≠ []) :
    dtypesIsTruthyDict (some (.dict d)) = true := by
  cases d with
  | nil => exact absurd rfl h
  | cons kv t => rfl

/-! ### C4: rename list with dtype dict and explicit selection -/

/-- C4: when a rename list, a name-keyed dtype dict, and an explicit column
selection are supplied together (the earlier validations passing), the call
fails with the invalid-option error — before any resolution or read — exactly
when the rename list is strictly longer than the selection; otherwise (for
duplicate-free names) the dict handed to the native reader has every dtype
key re-keyed through position: a key equal to `new_columns[i]` becomes
`columns[i]`, the pre-rename identity. -/
theorem read_csv_rename_dtype_rekey (env : Env) (p : CsvParams)
    (ncs : List String) (d : List (String × DType)) (cs : List String)
    (hfile : isEmptyBytesArg p.file = false)
    (hcheck : columnsNameCheckFails p = false)
    (himp : (p.use_pyarrow && !env.pyarrowAvailable) = false)
    (hnc : p.new_columns = some ncs) (hncne : ncs ≠ [])
    (hdt : p.dtypes = some (.dict d)) (hdne : d ≠ [])
    (hcs : p.columns = some cs) (hcsne : cs ≠ []) :
    (cs.length < ncs.length →
      read_csv env p = ⟨[], .error .tooManyNewColumns⟩) ∧
    (ncs.length ≤ cs.length →
      ((d.map (fun kv =>
          dictGetD (ncs.zip (cs.take ncs.length)) kv.1 kv.1)).Nodup → ncs.Nodup →
        ∃ args, (read_csv env p).events = [.resolve p.file, .nativeCsvRead args] ∧
          args.dtypes = some (.dict (d.map (fun kv =>
            (dictGetD (ncs.zip (cs.take ncs.length)) kv.1 kv.1, kv.2))))) ∧
      (ncs.Nodup → ∀ i, i < ncs.length →
        dictGetD (ncs.zip (cs.take ncs.length)) (ncs.getD i "") (ncs.getD i "") =
          cs.getD i "")) := by
  have hguard : pyarrowEligible p = false := by
    simp [pyarrowEligible, hdt]
  have hrun : read_csv env p = nativeCsvRun env p := by
    rcases read_csv_branches env p with ⟨hg, h⟩ | ⟨hg, h⟩ | ⟨hg, h⟩ | ⟨hg, h⟩ | ⟨_, h⟩
    · rw [hg] at hfile; simp at hfile
    · rw [hg] at hcheck; simp at hcheck
    · rw [hg] at himp; simp at himp
    · rw [hg] at hguard; simp at hguard
    · exact h
  have hadj : adjustedDtypes p =
      (reconcileDtypes p.has_header (some cs) p.projection ncs d).map some := by
    unfold adjustedDtypes
    rw [hnc, hdt, hcs]
    simp [optListTruthy_some _ hncne, dtypesIsTruthyDict_some _ hdne, dtypesEntries]
  constructor
  · intro hlt
    have hcur : reconcileCurrent p.has_header (some cs) p.projection ncs d =
        .error .tooManyNewColumns := by
      unfold reconcileCurrent
      simp [optListTruthy_some _ hcsne, hlt]
    rw [hrun]
    unfold nativeCsvRun
    rw [hadj]
    unfold reconcileDtypes
    rw [hcur]
    rfl
  · intro hle
    have hzipnd : (ncs.Nodup) → ((ncs.zip (cs.take ncs.length)).map Prod.fst).Nodup := by
      intro hnd
      rw [List.map_fst_zip _ _ (by simp; omega)]
      exact hnd
    constructor
    · intro hmapnd hnd
      have hcur : reconcileCurrent p.has_header (some cs) p.projection ncs d =
          .ok (some (cs.take ncs.length), .dict d) := by
        unfold reconcileCurrent
        simp [optListTruthy_some _ hcsne, Nat.not_lt.mpr hle]
      have htak : cs.take ncs.length ≠ [] := by
        have h1 : 0 < ncs.length := List.length_pos.mpr hncne
        have h2 : 0 < cs.length := List.length_pos.mpr hcsne
        intro hcon
        have hlen := congrArg List.length hcon
        rw [List.length_take] at hlen
        simp only [List.length_nil] at hlen
        omega
      have hrk : rekeyDtypes ncs (some (cs.take ncs.length)) (.dict d) =
          .dict (d.map (fun kv =>
            (dictGetD (ncs.zip (cs.take ncs.length)) kv.1 kv.1, kv.2))) := by
        unfold rekeyDtypes
        rw [optListTruthy_some _ htak]
        simp only [if_true, Option.getD_some]
        rw [dictOfPairs_eq_self _ (hzipnd hnd)]
        rw [dictOfPairs_eq_self]
        rw [List.map_map]
        exact hmapnd
      have hadj2 : adjustedDtypes p = .ok (some (.dict (d.map (fun kv =>
          (dictGetD (ncs.zip (cs.take ncs.length)) kv.1 kv.1, kv.2))))) := by
        rw [hadj]
        unfold reconcileDtypes
        rw [hcur]
        show Except.map some
          (.ok (rekeyDtypes ncs (some (cs.take ncs.length)) (.dict d))) = _
        rw [hrk]
        rfl
      refine ⟨nativeCsvArgsOf env p (some (.dict (d.map (fun kv =>
        (dictGetD (ncs.zip (cs.take ncs.length)) kv.1 kv.1, kv.2))))), ?_, ?_⟩
      · rw [hrun]
        unfold nativeCsvRun
        rw [hadj2]
      · rfl
    · intro hnd i hi
      have hlen : ncs.length = (cs.take ncs.length).length := by
        simp
        omega
      rw [dictGetD, lookup_zip_getD ncs (cs.take ncs.length) i hnd hi hlen]
      rw [Option.getD_some]
      exact getD_take_eq cs ncs.length i hi

/-- C4 witness: a longer rename list fails; an equal-length one re-keys the
dtype entry `("x", 1)` to the pre-rename identity `"a"`. -/
theorem read_csv_rename_dtype_rekey_witness :
    read_csv env0
      { file := .strPath "t.csv", columns := some ["a"],
        new_columns := some ["x", "y"], dtypes := some (.dict [("x", 1)]) } =
      ⟨[], .error .tooManyNewColumns⟩ ∧
    (∀ i, i < (["x", "y"] : List String).length →
      dictGetD ((["x", "y"] : List String).zip ((["a", "b"] : List String).take
          (["x", "y"] : List String).length))
        ((["x", "y"] : List String).getD i "") ((["x", "y"] : List String).getD i "") =
        (["a", "b"] : List String).getD i "") :=
  ⟨(read_csv_rename_dtype_rekey env0
      { file := .strPath "t.csv", columns := some ["a"],
        new_columns := some ["x", "y"], dtypes := some (.dict [("x", 1)]) }
      ["x", "y"] [("x", 1)] ["a"] rfl rfl rfl rfl (by decide) rfl (by decide) rfl
      (by decide)).1 (by decide),
   ((read_csv_rename_dtype_rekey env0
      { file := .strPath "t.csv", columns := some ["a", "b"],
        new_columns := some ["x", "y"], dtypes := some (.dict [("x", 1)]) }
      ["x", "y"] [("x", 1)] ["a", "b"] rfl rfl rfl rfl (by decide) rfl (by decide) rfl
      (by decide)).2 (by decide)).2 (by decide)⟩

/-! ### C3: header-less column-name round-trip through the pyarrow strategy -/

theorem pyarrowNameOfColumn_synthetic (k : Nat) (h : 1 ≤ k) :
    pyarrowNameOfColumn (syntheticName k) = pyarrowNameOfIndex (k - 1) := by
  unfold pyarrowNameOfColumn syntheticName pyarrowNameOfIndex
  have hdrop : ("column_" ++ toString k).drop 7 = toString k := by
    apply String.ext
    rw [String.data_drop, String.data_append]
    have h7 : ("column_".data).length = 7 := rfl
    rw [← h7, List.drop_left]
  rw [hdrop]
  have htos : toString k = Nat.repr k := rfl
  rw [htos, toNat?_repr k, Option.getD_some]
  have hcast : ((k : Int) - 1) = ((k - 1 : Nat) : Int) := by omega
  rw [hcast]
  rfl

theorem columnNameOfPyarrow_fname (j : Nat) :
    columnNameOfPyarrow (pyarrowNameOfIndex j) = syntheticName (j + 1) := by
  unfold columnNameOfPyarrow pyarrowNameOfIndex syntheticName
  have hdrop : ("f" ++ toString j).drop 1 = toString j := by
    apply String.ext
    rw [String.data_drop, String.data_append]
    have h1 : ("f".data).length = 1 := rfl
    rw [← h1, List.drop_left]
  rw [hdrop]
  have htos : toString j = Nat.repr j := rfl
  rw [htos, toNat?_repr j, Option.getD_some]
  have hcast : ((j : Int) + 1) = ((j + 1 : Nat) : Int) := by omega
  rw [hcast]
  rfl

/-- C3: a header-less read through the alternate (pyarrow) strategy, with no
selection, yields exactly the contiguous 1-based names
`column_1 .. column_N` — identical to the native strategy's synthetic names —
and the underlying name translation round-trips: a requested `column_<k>` is
sent to pyarrow's zero-based `f<k-1>` before the read, and each pyarrow name
`f<j>` is renamed back to `column_<j+1>` after it. -/
theorem read_csv_headerless_pyarrow_names (env : Env) (p : CsvParams)
    (hav : env.pyarrowAvailable = true) (hfile : isEmptyBytesArg p.file = false)
    (hh : p.has_header = false) (hcols : p.columns = none) (hproj : p.projection = none)
    (hnewc : p.new_columns = none) (hpa : p.use_pyarrow = true) (hdt : p.dtypes = none)
    (hnr : p.n_rows = none) (hnt : p.n_threads = none) (henc : p.encoding = "utf8")
    (hlm : p.low_memory = false) (hnv : p.null_values = none) (hpd : p.parse_dates = true) :
    ((read_csv env p).result =
      .ok ⟨(List.range env.srcWidth).map (fun i => syntheticName (i + 1))⟩) ∧
    ((read_csv env p).result = (read_csv env { p with use_pyarrow := false }).result) ∧
    (∃ e, (read_csv env p).events = [.resolve p.file, e] ∧ e.isPyarrowCsv = true) ∧
    (∀ k, 1 ≤ k → pyarrowNameOfColumn (syntheticName k) = pyarrowNameOfIndex (k - 1)) ∧
    (∀ j, columnNameOfPyarrow (pyarrowNameOfIndex j) = syntheticName (j + 1)) := by
  have hchk : columnsNameCheckFails p = false := by
    simp [columnsNameCheckFails, hcols, optListTruthy]
  have hg : pyarrowEligible p = true := by
    simp [pyarrowEligible, hpa, hdt, hnr, hnt, henc, hlm, hnv, hpd]
  have hrun : read_csv env p = pyarrowCsvRun env p := by
    rcases read_csv_branches env p with ⟨hg1, h⟩ | ⟨hg1, h⟩ | ⟨hg1, h⟩ | ⟨_, h⟩ | ⟨hg1, h⟩
    · rw [hg1] at hfile; simp at hfile
    · rw [hg1] at hchk; simp at hchk
    · rw [hpa, hav] at hg1; simp at hg1
    · exact h
    · rw [hg1] at hg; simp at hg
  have hinc : pyarrowIncludeColumns p = none := by
    simp [pyarrowIncludeColumns, hcols, hproj, optListTruthy]
  have hnames : (pyarrowCsvRun env p).result =
      .ok ⟨(List.range env.srcWidth).map (fun i => syntheticName (i + 1))⟩ := by
    unfold pyarrowCsvRun
    rw [hinc, hh, hnewc]
    show Except.ok
        (⟨((List.range env.srcWidth).map pyarrowNameOfIndex).map columnNameOfPyarrow⟩ :
          DataFrame) = _
    rw [List.map_map]
    have hmap : (List.range env.srcWidth).map (columnNameOfPyarrow ∘ pyarrowNameOfIndex) =
        (List.range env.srcWidth).map (fun i => syntheticName (i + 1)) := by
      apply List.map_congr_left
      intro a _
      simpa using columnNameOfPyarrow_fname a
    rw [hmap]
  refine ⟨by rw [hrun]; exact hnames, ?_, ?_, fun k hk => pyarrowNameOfColumn_synthetic k hk,
    fun j => columnNameOfPyarrow_fname j⟩
  · have hg' : pyarrowEligible { p with use_pyarrow := false } = false := by
      simp [pyarrowEligible]
    have hchk' : columnsNameCheckFails { p with use_pyarrow := false } = false := by
      dsimp only
      exact hchk
    have hrun' : read_csv env { p with use_pyarrow := false } =
        nativeCsvRun env { p with use_pyarrow := false } := by
      rcases read_csv_branches env { p with use_pyarrow := false } with
        ⟨hg1, h⟩ | ⟨hg1, h⟩ | ⟨hg1, h⟩ | ⟨hg1, h⟩ | ⟨_, h⟩
      · dsimp only at hg1; rw [hg1] at hfile; simp at hfile
      · rw [hg1] at hchk'; simp at hchk'
      · dsimp only at hg1; simp at hg1
      · rw [hg1] at hg'; simp at hg'
      · exact h
    have hadj : adjustedDtypes { p with use_pyarrow := false } = .ok none := by
      unfold adjustedDtypes
      dsimp only
      rw [hnewc, hdt]
      rfl
    have hnative : (nativeCsvRun env { p with use_pyarrow := false }).result =
        .ok ⟨(List.range env.srcWidth).map (fun i => syntheticName (i + 1))⟩ := by
      unfold nativeCsvRun
      rw [hadj]
      dsimp only
      rw [hnewc, hh, hcols, hproj]
      rfl
    rw [hrun, hrun', hnames, hnative]
  · rw [hrun]
    refine ⟨.pyarrowCsvRead (_prepare_file_arg env p.file).value p.skip_rows (!p.has_header)
      p.sep (pyarrowIncludeColumns p) p.ignore_errors, ?_, rfl⟩
    rfl

/-- C3 witness: a width-2 header-less pyarrow-strategy read produces
`column_1`, `column_2`, and `column_3` translates to `f2`. -/
theorem read_csv_headerless_pyarrow_names_witness :
    (read_csv env0
      { file := .strPath "t.csv", has_header := false, use_pyarrow := true,
        parse_dates := true }).result =
      .ok ⟨(List.range env0.srcWidth).map (fun i => syntheticName (i + 1))⟩ ∧
    pyarrowNameOfColumn (syntheticName 3) = pyarrowNameOfIndex 2 :=
  ⟨(read_csv_headerless_pyarrow_names env0
      { file := .strPath "t.csv", has_header := false, use_pyarrow := true,
        parse_dates := true }
      rfl rfl rfl rfl rfl rfl rfl rfl rfl rfl rfl rfl rfl rfl).1,
   (read_csv_headerless_pyarrow_names env0
      { file := .strPath "t.csv", has_header := false, use_pyarrow := true,
        parse_dates := true }
      rfl rfl rfl rfl rfl rfl rfl rfl rfl rfl rfl rfl rfl rfl).2.2.2.1 3 (by decide)⟩

end PolarsIO
